import Mathlib

/-!
Verification of the anti-drainer sponsored batch-authorization core.

Shallow embedding of the two Solidity contracts (`PermitSaver.sol`,
`EIP7702Saver.sol`), of the web client's batch-digest construction
(`PermitSaverService.ts`) and of the delegation marker reader
(`delegationService.ts`).

Modelling conventions:
* machine words (`uint256`, `address`) are `Nat`; byte strings are `List Nat`
  with entries below 256, produced by fixed-width big-endian encoders;
* `keccak256` is an abstract parameter `K : Bytes → Nat`, and `ECDSA.recover`
  composed with address derivation is an abstract parameter
  `R : Nat → Nat → Nat` taking the prefixed digest and an opaque signature
  token and returning the recovered address;
* external token calls (`permit`, `allowance`, `transferFrom`) and generic
  calls are supplied by an environment record of oracles;
* an entry point returns a `TxOutcome`: its `result` (the revert error or the
  emitted events), the storage nonce that persists after the transaction
  (EVM revert semantics roll every storage write back, including `nonce++`),
  and a flag recording whether ECDSA recovery was executed during the call.
-/

namespace AntiDrainer

/-- Byte strings (each entry is one byte, < 256). -/
abbrev Bytes := List Nat

/-- Fixed-width big-endian byte encoding: `beBytes w n` is the low `8*w` bits
of `n` as `w` bytes, most significant first.  `abi.encodePacked` renders an
`address` as `beBytes 20` and a `uint256`/`bytes32` as `beBytes 32`. -/
def beBytes : Nat → Nat → Bytes
  | 0, _ => []
  | w + 1, n => beBytes w (n / 256) ++ [n % 256]

/-- The 28-byte personal-sign header `"\x19Ethereum Signed Message:\n32"`
shared by `MessageHashUtils.toEthSignedMessageHash` (contract side) and by
viem `signMessage { raw }` (client side). -/
def ethSignedTag : Bytes :=
  25 :: ("Ethereum Signed Message:\n32".data.map Char.toNat)

/-- `MessageHashUtils.toEthSignedMessageHash`: hash of the personal-sign
header followed by the 32-byte digest. -/
def toEthSignedMessageHash (K : Bytes → Nat) (h : Nat) : Nat :=
  K (ethSignedTag ++ beBytes 32 h)

/-- `PermitSaver.PermitData` (PermitSaver.sol lines 19-28). -/
structure PermitData where
  token : Nat
  owner : Nat
  spender : Nat
  value : Nat
  deadline : Nat
  v : Nat
  r : Nat
  s : Nat
deriving DecidableEq, Repr

/-- `PermitSaver.TransferData` (PermitSaver.sol lines 30-34); `toAddr` models
the source field `to`, a reserved word in Lean. -/
structure TransferData where
  token : Nat
  toAddr : Nat
  amount : Nat
deriving DecidableEq, Repr

/-- The error taxonomy of `PermitSaver` (PermitSaver.sol lines 54-61). -/
inductive PSError where
  | InvalidSignature
  | PermitFailed (token : Nat) (reason : String)
  | TransferFailed (token : Nat) (reason : String)
  | BatchTooLarge
  | InvalidToken
  | PermitExpired
  | ArrayLengthMismatch
  | InvalidSpender
deriving DecidableEq, Repr

/-- Events emitted by `PermitSaver` (PermitSaver.sol lines 42-52). -/
inductive PSEvent where
  | TokenSaved (token fromAddr toAddr amount : Nat)
  | BatchExecuted (nonce count executor : Nat)
deriving DecidableEq, Repr

/-- Outcome of the external `token.permit(...)` call made by
`_executePermit`: success, revert with an `Error(string)` reason, or a raw
revert caught by the reasonless `catch`. -/
inductive PermitCallResult where
  | success
  | revertWith (reason : String)
  | revertRaw
deriving DecidableEq, Repr

/-- Oracles for the external token calls `PermitSaver` makes: the outcome of
`token.permit(...)`, the current `allowance(owner, spender)` read by the
fallback, and the boolean returned by `transferFrom(from, to, amount)`. -/
structure TokenEnv where
  permitResult : PermitData → PermitCallResult
  allowance : Nat → Nat → Nat → Nat
  transferFrom : Nat → Nat → Nat → Nat → Bool


/-- `MAX_BATCH_SIZE` of both contracts. -/
def MAX_BATCH_SIZE : Nat := 50

/-- `_validatePermitData` (PermitSaver.sol lines 156-160): zero token or
owner is `InvalidToken`; a deadline before the current block timestamp is
`PermitExpired`. -/
def validatePermitData (now : Nat) (pd : PermitData) : Except PSError Unit :=
  if pd.token = 0 then .error .InvalidToken
  else if pd.owner = 0 then .error .InvalidToken
  else if pd.deadline < now then .error .PermitExpired
  else .ok ()

/-- `_validateTransferData` (PermitSaver.sol lines 165-171): zero token,
zero recipient or zero amount is `InvalidToken`. -/
def validateTransferData (td : TransferData) : Except PSError Unit :=
  if td.token = 0 then .error .InvalidToken
  else if td.toAddr = 0 then .error .InvalidToken
  else if td.amount = 0 then .error .InvalidToken
  else .ok ()

/-- `_executePermit` (PermitSaver.sol lines 176-213): try the permit call;
on either catch branch re-read `allowance(owner, address(this))` and revert
`PermitFailed(token, reason)` only when it is below the requested value
(`reason` is the caught string, or `"Unknown error"` in the raw catch). -/
def executePermit (env : TokenEnv) (self : Nat) (pd : PermitData) :
    Except PSError Unit :=
  match env.permitResult pd with
  | .success => .ok ()
  | .revertWith reason =>
    if env.allowance pd.token pd.owner self < pd.value then
      .error (.PermitFailed pd.token reason)
    else .ok ()
  | .revertRaw =>
    if env.allowance pd.token pd.owner self < pd.value then
      .error (.PermitFailed pd.token "Unknown error")
    else .ok ()

/-- `_executeTransferFromOwner` (PermitSaver.sol lines 218-234): a false
return from `transferFrom` reverts `TransferFailed(token, "Transfer failed")`. -/
def executeTransferFromOwner (env : TokenEnv) (fromAddr : Nat)
    (td : TransferData) : Except PSError Unit :=
  if env.transferFrom td.token fromAddr td.toAddr td.amount then .ok ()
  else .error (.TransferFailed td.token "Transfer failed")

/-- The packed per-pair byte string folded into the batch digest: the running
32-byte hash, then the permit fields and the transfer fields, exactly in the
`abi.encodePacked` order of `_verifyBatchSignature` (PermitSaver.sol lines
289-301). -/
def pairBytes (h : Nat) (pd : PermitData) (td : TransferData) : Bytes :=
  beBytes 32 h ++ beBytes 20 pd.token ++ beBytes 20 pd.owner ++
    beBytes 20 pd.spender ++ beBytes 32 pd.value ++ beBytes 32 pd.deadline ++
    beBytes 20 td.token ++ beBytes 20 td.toAddr ++ beBytes 32 td.amount

/-- The batch message hash of `_verifyBatchSignature` (PermitSaver.sol lines
278-302): seed the hash with the two lengths and the nonce, then fold one
keccak per pair over the running hash and the pair's fields.  The contract's
loop indexes both arrays by the same `i`; the entry point only calls it with
equal lengths, modelled by folding over `ps.zip ts`. -/
def batchMessageHash (K : Bytes → Nat) (nonce : Nat) (ps : List PermitData)
    (ts : List TransferData) : Nat :=
  (ps.zip ts).foldl (fun h pr => K (pairBytes h pr.1 pr.2))
    (K (beBytes 32 ps.length ++ beBytes 32 ts.length ++ beBytes 32 nonce))

/-- The prefixed digest that `_verifyBatchSignature` recovers against. -/
def batchEthDigest (K : Bytes → Nat) (nonce : Nat) (ps : List PermitData)
    (ts : List TransferData) : Nat :=
  toEthSignedMessageHash K (batchMessageHash K nonce ps ts)

/-- `_verifyBatchSignature` (PermitSaver.sol lines 273-327): recover a signer
from the prefixed batch digest; when the batch is nonempty require every
permit's owner to equal the first owner and the recovered address to equal
that owner, reverting `InvalidSignature` otherwise.  An empty batch performs
no check at all. -/
def verifyBatchSignature (K : Bytes → Nat) (R : Nat → Nat → Nat) (nonce : Nat)
    (ps : List PermitData) (ts : List TransferData) (sig : Nat) :
    Except PSError Unit :=
  let recovered := R (batchEthDigest K nonce ps ts) sig
  match ps with
  | [] => .ok ()
  | p0 :: rest =>
    if (p0 :: rest).all (fun p => p.owner == p0.owner) then
      if recovered = p0.owner then .ok () else .error .InvalidSignature
    else .error .InvalidSignature

/-- The single-pair message hash of `_verifySignature` (PermitSaver.sol lines
244-257): one flat `abi.encodePacked` of the permit fields, the transfer
fields and the current nonce. -/
def singleMessageHash (K : Bytes → Nat) (nonce : Nat) (pd : PermitData)
    (td : TransferData) : Nat :=
  K (beBytes 20 pd.token ++ beBytes 20 pd.owner ++ beBytes 20 pd.spender ++
    beBytes 32 pd.value ++ beBytes 32 pd.deadline ++ beBytes 20 td.token ++
    beBytes 20 td.toAddr ++ beBytes 32 td.amount ++ beBytes 32 nonce)

/-- `_verifySignature` (PermitSaver.sol lines 239-268): recover from the
prefixed single-pair digest and require the permit's owner. -/
def verifySignature (K : Bytes → Nat) (R : Nat → Nat → Nat) (nonce : Nat)
    (pd : PermitData) (td : TransferData) (sig : Nat) : Except PSError Unit :=
  if R (toEthSignedMessageHash K (singleMessageHash K nonce pd td)) sig
      = pd.owner then .ok ()
  else .error .InvalidSignature

/-- Result of one entry-point transaction: the revert error or the emitted
events, whether ECDSA recovery was executed during the call, and the storage
nonce that persists afterwards (a revert rolls back every write). -/
structure TxOutcome where
  result : Except PSError (List PSEvent)
  recoverInvoked : Bool
  nonceAfter : Nat
deriving Repr

/-- The loop body of `permitTransferBatchWithSignature` (PermitSaver.sol
lines 125-148), applied to each permit/transfer pair in order: validate both
records, require `spender == address(this)`, run the permit adapter, run the
transfer, emit `TokenSaved`.  The first error aborts the rest. -/
def permitBatchLoop (env : TokenEnv) (self now : Nat) :
    List (PermitData × TransferData) → Except PSError (List PSEvent)
  | [] => .ok []
  | (pd, td) :: rest =>
    match validatePermitData now pd with
    | .error e => .error e
    | .ok () =>
      match validateTransferData td with
      | .error e => .error e
      | .ok () =>
        if pd.spender = self then
          match executePermit env self pd with
          | .error e => .error e
          | .ok () =>
            match executeTransferFromOwner env pd.owner td with
            | .error e => .error e
            | .ok () =>
              match permitBatchLoop env self now rest with
              | .error e => .error e
              | .ok evs =>
                .ok (.TokenSaved td.token pd.owner td.toAddr td.amount :: evs)
        else .error .InvalidSpender

/-- `permitTransferBatchWithSignature` (PermitSaver.sol lines 103-151): size
checks, length-equality check, batch signature verification, `nonce++`, then
the per-pair execution loop and the `BatchExecuted` event.  A revert anywhere
rolls the nonce increment back, so `nonceAfter` advances only on success. -/
def permitTransferBatchWithSignature (K : Bytes → Nat) (R : Nat → Nat → Nat)
    (env : TokenEnv) (self now sender nonce : Nat) (ps : List PermitData)
    (ts : List TransferData) (sig : Nat) : TxOutcome :=
  if MAX_BATCH_SIZE < ps.length ∨ MAX_BATCH_SIZE < ts.length then
    ⟨.error .BatchTooLarge, false, nonce⟩
  else if ps.length ≠ ts.length then
    ⟨.error .ArrayLengthMismatch, false, nonce⟩
  else
    match verifyBatchSignature K R nonce ps ts sig with
    | .error e => ⟨.error e, true, nonce⟩
    | .ok () =>
      match permitBatchLoop env self now (ps.zip ts) with
      | .error e => ⟨.error e, true, nonce⟩
      | .ok evs =>
        ⟨.ok (evs ++ [.BatchExecuted nonce ps.length sender]), true, nonce + 1⟩

/-- `permitTransferWithSignature` (PermitSaver.sol lines 69-95): validate the
permit and transfer records, require `spender == address(this)`, verify the
owner's signature over the single-pair digest, run the permit adapter and the
transfer, emit `TokenSaved`.  The source never touches `nonce` on this path,
so `nonceAfter` equals the pre-state nonce even on success. -/
def permitTransferWithSignature (K : Bytes → Nat) (R : Nat → Nat → Nat)
    (env : TokenEnv) (self now nonce : Nat) (pd : PermitData)
    (td : TransferData) (sig : Nat) : TxOutcome :=
  match validatePermitData now pd with
  | .error e => ⟨.error e, false, nonce⟩
  | .ok () =>
    match validateTransferData td with
    | .error e => ⟨.error e, false, nonce⟩
    | .ok () =>
      if pd.spender = self then
        match verifySignature K R nonce pd td sig with
        | .error e => ⟨.error e, true, nonce⟩
        | .ok () =>
          match executePermit env self pd with
          | .error e => ⟨.error e, true, nonce⟩
          | .ok () =>
            match executeTransferFromOwner env pd.owner td with
            | .error e => ⟨.error e, true, nonce⟩
            | .ok () =>
              ⟨.ok [.TokenSaved td.token pd.owner td.toAddr td.amount], true, nonce⟩
      else ⟨.error .InvalidSpender, false, nonce⟩

/-- `EIP7702Saver.Call` (EIP7702Saver.sol lines 17-21); `toAddr` models the
source field `to`, a reserved word in Lean. -/
structure CallData where
  toAddr : Nat
  value : Nat
  data : Bytes
deriving DecidableEq, Repr

/-- The error taxonomy of `EIP7702Saver` (EIP7702Saver.sol lines 41-45). -/
inductive ESError where
  | InvalidAuthority
  | InvalidSignature
  | CallFailed (callIndex : Nat) (returnData : Bytes)
  | BatchTooLarge
  | InsufficientETH
deriving DecidableEq, Repr

/-- Events emitted by `EIP7702Saver` (EIP7702Saver.sol lines 29-39). -/
inductive ESEvent where
  | CallExecuted (sender toAddr value : Nat) (data : Bytes)
  | BatchExecuted (nonce count executor : Nat)
deriving DecidableEq, Repr

/-- Oracle for the generic external calls `_executeCall` makes: success flag
and return data of `call.to.call{value: call.value}(call.data)`. -/
structure CallEnv where
  callResult : CallData → Bool × Bytes

/-- `_encodeCalls` (EIP7702Saver.sol lines 135-148): concatenate, in order,
`abi.encodePacked(to, value, data)` of every call. -/
def encodeCalls (calls : List CallData) : Bytes :=
  calls.foldl
    (fun enc c => enc ++ beBytes 20 c.toAddr ++ beBytes 32 c.value ++ c.data) []

/-- The sponsored-path digest of `execute(calls, signature)` (EIP7702Saver.sol
line 71): the nonce packed with the encoded calls. -/
def callBatchDigest (K : Bytes → Nat) (nonce : Nat) (calls : List CallData) :
    Nat :=
  K (beBytes 32 nonce ++ encodeCalls calls)

/-- Outcome of one `EIP7702Saver` entry-point transaction, mirroring
`TxOutcome`. -/
structure ESTxOutcome where
  result : Except ESError (List ESEvent)
  recoverInvoked : Bool
  nonceAfter : Nat
deriving Repr

/-- The call loop of `_executeBatch` (EIP7702Saver.sol lines 102-105):
execute each call in order via `_executeCall`, reverting
`CallFailed(index, returnData)` on the first failure and emitting
`CallExecuted` per success. -/
def executeCallLoop (env : CallEnv) (sender : Nat) :
    Nat → List CallData → Except ESError (List ESEvent)
  | _, [] => .ok []
  | i, c :: rest =>
    match env.callResult c with
    | (true, _) =>
      match executeCallLoop env sender (i + 1) rest with
      | .error e => .error e
      | .ok evs => .ok (.CallExecuted sender c.toAddr c.value c.data :: evs)
    | (false, returnData) => .error (.CallFailed i returnData)

/-- `_executeBatch` (EIP7702Saver.sol lines 88-115): snapshot the nonce and
increment it, require `msg.value` to cover the total call value
(`InsufficientETH`), run every call, emit `BatchExecuted`, and ignore the
outcome of the excess-ETH refund.  Returns the result together with the
persisted nonce: a revert inside the batch rolls the increment back. -/
def executeBatch (env : CallEnv) (sender msgValue nonce : Nat)
    (calls : List CallData) : Except ESError (List ESEvent) × Nat :=
  let totalValueNeeded := (calls.map CallData.value).sum
  if msgValue < totalValueNeeded then (.error .InsufficientETH, nonce)
  else
    match executeCallLoop env sender 0 calls with
    | .error e => (.error e, nonce)
    | .ok evs => (.ok (evs ++ [.BatchExecuted nonce calls.length sender]), nonce + 1)

/-- The self-execution entry `execute(calls)` (EIP7702Saver.sol lines 51-54):
only `msg.sender == address(this)` may call; no size check and no signature
work, then `_executeBatch`. -/
def executeSelf (env : CallEnv) (sender msgValue self nonce : Nat)
    (calls : List CallData) : ESTxOutcome :=
  if sender = self then
    match executeBatch env sender msgValue nonce calls with
    | (r, n) => ⟨r, false, n⟩
  else ⟨.error .InvalidAuthority, false, nonce⟩

/-- The sponsored entry `execute(calls, signature)` (EIP7702Saver.sol lines
61-83): size check first (`BatchTooLarge`), then recover the signer from the
prefixed digest over the nonce and the encoded calls and require it to be
`address(this)` (`InvalidSignature`), then `_executeBatch`. -/
def executeSponsored (K : Bytes → Nat) (R : Nat → Nat → Nat) (env : CallEnv)
    (sender msgValue self nonce : Nat) (calls : List CallData) (sig : Nat) :
    ESTxOutcome :=
  if MAX_BATCH_SIZE < calls.length then ⟨.error .BatchTooLarge, false, nonce⟩
  else
    if R (toEthSignedMessageHash K (callBatchDigest K nonce calls)) sig = self
    then
      match executeBatch env sender msgValue nonce calls with
      | (r, n) => ⟨r, true, n⟩
    else ⟨.error .InvalidSignature, true, nonce⟩

/-- The client-side batch message hash of
`PermitSaverService.createBatchSignature` (PermitSaverService.ts lines
197-237): seed `keccak256(encodePacked([uint256, uint256, uint256], [permits
length, transfers length, contract nonce]))`, then for each index rebind the
hash to the keccak of the packed `[bytes32, address, address, address,
uint256, uint256, address, address, uint256]` fields of the pair.  The TS
loop indexes both arrays by the same `i`, modelled by structural recursion
over the zipped pairs. -/
def clientFold (K : Bytes → Nat) :
    Nat → List (PermitData × TransferData) → Nat
  | h, [] => h
  | h, (pd, td) :: rest =>
    clientFold K
      (K (beBytes 32 h ++ beBytes 20 pd.token ++ beBytes 20 pd.owner ++
        beBytes 20 pd.spender ++ beBytes 32 pd.value ++
        beBytes 32 pd.deadline ++ beBytes 20 td.token ++
        beBytes 20 td.toAddr ++ beBytes 32 td.amount))
      rest

/-- The full client-side batch message hash (PermitSaverService.ts lines
197-237). -/
def clientBatchMessageHash (K : Bytes → Nat) (ps : List PermitData)
    (ts : List TransferData) (contractNonce : Nat) : Nat :=
  clientFold K
    (K (beBytes 32 ps.length ++ beBytes 32 ts.length ++
      beBytes 32 contractNonce))
    (ps.zip ts)

/-- The digest the client's `signMessage { raw: messageHash }` actually signs
(PermitSaverService.ts lines 239-244): viem prepends the personal-sign header
for a 32-byte payload and hashes again. -/
def clientSignedDigest (K : Bytes → Nat) (ps : List PermitData)
    (ts : List TransferData) (contractNonce : Nat) : Nat :=
  K (ethSignedTag ++ beBytes 32 (clientBatchMessageHash K ps ts contractNonce))

/-- Modelled from the spec: the Canonical Encoder fold formula of section 4.1
(permit-batch variant), `hash0 = H(count(permits), count(transfers),
counter)` and `hash_SUCC(i) = H(hash_i, permit_i fields, transfer_i fields)`,
rendered with the same canonical field widths the code uses. -/
def specFoldDigest (K : Bytes → Nat) (nonce : Nat) (ps : List PermitData)
    (ts : List TransferData) : Nat :=
  (ps.zip ts).foldl
    (fun h pr =>
      K (beBytes 32 h ++ beBytes 20 pr.1.token ++ beBytes 20 pr.1.owner ++
        beBytes 20 pr.1.spender ++ beBytes 32 pr.1.value ++
        beBytes 32 pr.1.deadline ++ beBytes 20 pr.2.token ++
        beBytes 20 pr.2.toAddr ++ beBytes 32 pr.2.amount))
    (K (beBytes 32 ps.length ++ beBytes 32 ts.length ++ beBytes 32 nonce))

/-- Result of `DelegationService.checkDelegation` (delegationService.ts lines
27-59): no delegation, a delegation carrying the bytes after the marker, or
the thrown unknown-bytecode error. -/
inductive DelegationCheck where
  | noDelegation
  | delegated (addr : Bytes)
  | unknownBytecode
deriving DecidableEq, Repr

/-- `DelegationService.checkDelegation` (delegationService.ts lines 27-59) on
the account's code bytes: `none` models an absent `getCode` result and
`some []` the literal `"0x"`; code starting with the 3-byte marker
`0xef0100` is a delegation to all the remaining bytes (`bytecode.slice(8)`);
any other non-empty code throws `"Unknown bytecode"`. -/
def checkDelegation (code : Option Bytes) : DelegationCheck :=
  match code with
  | none => .noDelegation
  | some [] => .noDelegation
  | some (0xef :: 0x01 :: 0x00 :: rest) => .delegated rest
  | some _ => .unknownBytecode

/-! Concrete instantiations used by closed counterexamples and witnesses. -/

/-- A degenerate hash oracle: every byte string hashes to 0. -/
def Kzero : Bytes → Nat := fun _ => 0

/-- A recovery oracle that always returns address 7. -/
def Rconst7 : Nat → Nat → Nat := fun _ _ => 7

/-- A concrete executable hash oracle: the sum of the bytes. -/
def Ksum : Bytes → Nat := fun bs => bs.foldl (fun a b => a + b) 0

/-- A recovery oracle returning the digest itself. -/
def Rid : Nat → Nat → Nat := fun d _ => d

/-- Token environment in which every permit and transfer succeeds. -/
def envAllOk : TokenEnv :=
  { permitResult := fun _ => .success
    allowance := fun _ _ _ => 0
    transferFrom := fun _ _ _ _ => true }

/-- Token environment whose permit call always reverts with a reason and
whose allowance reads are zero. -/
def envPermitRejects : TokenEnv :=
  { permitResult := fun _ => .revertWith "permit rejected"
    allowance := fun _ _ _ => 0
    transferFrom := fun _ _ _ _ => true }

/-- Token environment whose permit call always reverts with a reason but
whose allowance reads return 5. -/
def envAllowance5 : TokenEnv :=
  { permitResult := fun _ => .revertWith "permit rejected"
    allowance := fun _ _ _ => 5
    transferFrom := fun _ _ _ _ => true }

/-- Call environment in which every call succeeds with empty return data. -/
def cenvOk : CallEnv := ⟨fun _ => (true, [])⟩

/-- A structurally valid permit: token 1, owner 7, spender 5, value 1,
deadline 10. -/
def pdGood : PermitData := ⟨1, 7, 5, 1, 10, 0, 0, 0⟩

/-- A structurally valid transfer: token 1, recipient 2, amount 3. -/
def tdGood : TransferData := ⟨1, 2, 3⟩

/-- A permit with a zero token address. -/
def pdZeroToken : PermitData := ⟨0, 7, 5, 1, 10, 0, 0, 0⟩

/-- A permit naming spender 4 instead of the contract. -/
def pdWrongSpender : PermitData := ⟨1, 7, 4, 1, 10, 0, 0, 0⟩

/-- A transfer with a zero amount. -/
def tdZeroAmount : TransferData := ⟨1, 2, 0⟩

/-- Witness permit for the single-use-signature theorem: owner 1. -/
def pw : PermitData := ⟨2, 1, 3, 4, 5, 0, 0, 0⟩

/-- Witness transfer for the single-use-signature theorem. -/
def tw : TransferData := ⟨2, 6, 7⟩

/-- The prefixed batch digest of the witness batch at nonce 0 under `Ksum`. -/
def wDigest0 : Nat := batchEthDigest Ksum 0 [pw] [tw]

/-- The transposition of two naturals, identity elsewhere. -/
def natSwap (a b x : Nat) : Nat := if x = a then b else if x = b then a else x

/-- A recovery oracle that transposes `wDigest0` with address 1 and is the
identity elsewhere: injective in the digest for every fixed signature, and it
recovers owner 1 exactly on the witness digest at nonce 0. -/
def Rswap : Nat → Nat → Nat := fun d _ => natSwap wDigest0 1 d

/-- Fifty-one trivial calls. -/
def calls51 : List CallData := List.replicate 51 ⟨1, 0, []⟩

/-! Helper lemmas shared by the claim theorems. -/

/-- A transposition is an involution. -/
theorem natSwap_invol (a b x : Nat) : natSwap a b (natSwap a b x) = x := by
  unfold natSwap
  split_ifs <;> omega

/-- A transposition of two naturals is injective. -/
theorem natSwap_inj (a b d e : Nat) (h : natSwap a b d = natSwap a b e) :
    d = e := by
  have hd := natSwap_invol a b d
  have he := natSwap_invol a b e
  rw [← hd, ← he, h]

/-- `validatePermitData` can only fail with `InvalidToken` or
`PermitExpired`. -/
theorem validatePermitData_error (now : Nat) (pd : PermitData) (e : PSError)
    (h : validatePermitData now pd = .error e) :
    e = .InvalidToken ∨ e = .PermitExpired := by
  unfold validatePermitData at h
  split at h
  · exact Or.inl (Except.error.inj h).symm
  · split at h
    · exact Or.inl (Except.error.inj h).symm
    · split at h
      · exact Or.inr (Except.error.inj h).symm
      · exact absurd h (by simp)

/-- `validateTransferData` can only fail with `InvalidToken`. -/
theorem validateTransferData_error (td : TransferData) (e : PSError)
    (h : validateTransferData td = .error e) : e = .InvalidToken := by
  unfold validateTransferData at h
  split at h
  · exact (Except.error.inj h).symm
  · split at h
    · exact (Except.error.inj h).symm
    · split at h
      · exact (Except.error.inj h).symm
      · exact absurd h (by simp)

/-- `_executePermit` can only fail with `PermitFailed` on its own token. -/
theorem executePermit_error (env : TokenEnv) (self : Nat) (pd : PermitData)
    (e : PSError) (h : executePermit env self pd = .error e) :
    ∃ reason, e = .PermitFailed pd.token reason := by
  unfold executePermit at h
  split at h
  · exact absurd h (by simp)
  · split at h
    · exact ⟨_, (Except.error.inj h).symm⟩
    · exact absurd h (by simp)
  · split at h
    · exact ⟨_, (Except.error.inj h).symm⟩
    · exact absurd h (by simp)

/-- `_executeTransferFromOwner` can only fail with `TransferFailed` on its
own token. -/
theorem executeTransferFromOwner_error (env : TokenEnv) (fromAddr : Nat)
    (td : TransferData) (e : PSError)
    (h : executeTransferFromOwner env fromAddr td = .error e) :
    ∃ reason, e = .TransferFailed td.token reason := by
  unfold executeTransferFromOwner at h
  split at h
  · exact absurd h (by simp)
  · exact ⟨_, (Except.error.inj h).symm⟩

/-- Every error the permit-batch execution loop can raise: per-item
validation errors, the spender check, the permit adapter, or the transfer. -/
theorem permitBatchLoop_error (env : TokenEnv) (self now : Nat) :
    ∀ (prs : List (PermitData × TransferData)) (e : PSError),
      permitBatchLoop env self now prs = .error e →
      e = .InvalidToken ∨ e = .PermitExpired ∨ e = .InvalidSpender ∨
        (∃ t r, e = .PermitFailed t r) ∨ (∃ t r, e = .TransferFailed t r)
  | [], e, h => absurd h (by simp [permitBatchLoop])
  | (pd, td) :: rest, e, h => by
    unfold permitBatchLoop at h
    cases hv : validatePermitData now pd with
    | error ev =>
      simp only [hv] at h
      cases h
      rcases validatePermitData_error _ _ _ hv with h1 | h1 <;> simp [h1]
    | ok uv =>
      cases uv
      simp only [hv] at h
      cases ht : validateTransferData td with
      | error et =>
        simp only [ht] at h
        cases h
        simp [validateTransferData_error _ _ ht]
      | ok ut =>
        cases ut
        simp only [ht] at h
        by_cases hsp : pd.spender = self
        · simp only [if_pos hsp] at h
          cases hp : executePermit env self pd with
          | error ep =>
            simp only [hp] at h
            cases h
            obtain ⟨r, hr⟩ := executePermit_error _ _ _ _ hp
            exact Or.inr (Or.inr (Or.inr (Or.inl ⟨_, _, hr⟩)))
          | ok up =>
            cases up
            simp only [hp] at h
            cases htr : executeTransferFromOwner env pd.owner td with
            | error etr =>
              simp only [htr] at h
              cases h
              obtain ⟨r, hr⟩ := executeTransferFromOwner_error _ _ _ _ htr
              exact Or.inr (Or.inr (Or.inr (Or.inr ⟨_, _, hr⟩)))
            | ok utr =>
              cases utr
              simp only [htr] at h
              cases hrec : permitBatchLoop env self now rest with
              | error er =>
                simp only [hrec] at h
                cases h
                exact permitBatchLoop_error env self now rest _ hrec
              | ok evs =>
                simp only [hrec] at h
                exact absurd h (by simp)
        · simp only [if_neg hsp] at h
          cases h
          simp

/-- `_verifyBatchSignature` either succeeds or reverts `InvalidSignature`:
no other error leaves it. -/
theorem verifyBatchSignature_ok_or_invalid (K : Bytes → Nat)
    (R : Nat → Nat → Nat) (nonce : Nat) (ps : List PermitData)
    (ts : List TransferData) (sig : Nat) :
    verifyBatchSignature K R nonce ps ts sig = .ok () ∨
      verifyBatchSignature K R nonce ps ts sig = .error .InvalidSignature := by
  unfold verifyBatchSignature
  cases ps with
  | nil => simp
  | cons p0 rest =>
    by_cases hall : ((p0 :: rest).all fun p => p.owner == p0.owner) = true
    · simp only [hall, if_true]
      by_cases hrec : R (batchEthDigest K nonce (p0 :: rest) ts) sig = p0.owner
      · simp [hrec]
      · simp [hrec]
    · simp [hall]

/-- Success of `_verifyBatchSignature` on a nonempty batch forces the
all-owners check and the recovered-owner check. -/
theorem verifyBatchSignature_cons_ok (K : Bytes → Nat) (R : Nat → Nat → Nat)
    (nonce : Nat) (p0 : PermitData) (rest : List PermitData)
    (ts : List TransferData) (sig : Nat)
    (h : verifyBatchSignature K R nonce (p0 :: rest) ts sig = .ok ()) :
    (∀ p ∈ p0 :: rest, p.owner = p0.owner) ∧
      R (batchEthDigest K nonce (p0 :: rest) ts) sig = p0.owner := by
  unfold verifyBatchSignature at h
  by_cases hall : ((p0 :: rest).all fun p => p.owner == p0.owner) = true
  · simp only [hall, if_true] at h
    by_cases hrec : R (batchEthDigest K nonce (p0 :: rest) ts) sig = p0.owner
    · exact ⟨by simpa [List.all_eq_true] using hall, hrec⟩
    · simp [hrec] at h
  · simp [hall] at h

/-- A successful execution loop ran the spender check on every pair. -/
theorem permitBatchLoop_ok_spender (env : TokenEnv) (self now : Nat) :
    ∀ (prs : List (PermitData × TransferData)) (evs : List PSEvent),
      permitBatchLoop env self now prs = .ok evs →
      ∀ pr ∈ prs, pr.1.spender = self
  | [], _, _, pr, hmem => absurd hmem (by simp)
  | (pd, td) :: rest, evs, h, pr, hmem => by
    unfold permitBatchLoop at h
    cases hv : validatePermitData now pd with
    | error ev => simp [hv] at h
    | ok uv =>
      cases uv
      simp only [hv] at h
      cases ht : validateTransferData td with
      | error et => simp [ht] at h
      | ok ut =>
        cases ut
        simp only [ht] at h
        by_cases hsp : pd.spender = self
        · simp only [if_pos hsp] at h
          cases hp : executePermit env self pd with
          | error ep => simp [hp] at h
          | ok up =>
            cases up
            simp only [hp] at h
            cases htr : executeTransferFromOwner env pd.owner td with
            | error etr => simp [htr] at h
            | ok utr =>
              cases utr
              simp only [htr] at h
              cases hrec : permitBatchLoop env self now rest with
              | error er => simp [hrec] at h
              | ok evs2 =>
                rcases List.mem_cons.mp hmem with hpr | hpr
                · subst hpr; exact hsp
                · exact permitBatchLoop_ok_spender env self now rest evs2 hrec
                    pr hpr
        · simp [if_neg hsp] at h

/-- A property holding on the first component of every zipped pair holds on
every element of the left list, when the lists have equal length. -/
theorem forall_left_of_zip {α β : Type} (P : α → Prop) :
    ∀ (ps : List α) (ts : List β), ps.length = ts.length →
      (∀ pr ∈ ps.zip ts, P pr.1) → ∀ p ∈ ps, P p
  | [], _, _, _, p, hmem => absurd hmem (by simp)
  | _ :: _, [], hlen, _, _, _ => absurd hlen (by simp)
  | a :: ps, b :: ts, hlen, hall, p, hmem => by
    rcases List.mem_cons.mp hmem with hp | hp
    · subst hp; exact hall (p, b) (by simp)
    · exact forall_left_of_zip P ps ts (by simpa using hlen)
        (fun pr hpr => hall pr (by simp [hpr])) p hp

/-- The call loop of `_executeBatch` can only fail with `CallFailed`. -/
theorem executeCallLoop_error (env : CallEnv) (sender : Nat) :
    ∀ (i : Nat) (calls : List CallData) (e : ESError),
      executeCallLoop env sender i calls = .error e →
      ∃ idx rd, e = .CallFailed idx rd
  | _, [], e, h => absurd h (by simp [executeCallLoop])
  | i, c :: rest, e, h => by
    unfold executeCallLoop at h
    cases hc : env.callResult c with
    | mk ok rd =>
      cases ok with
      | false =>
        simp only [hc] at h
        cases h
        exact ⟨i, rd, rfl⟩
      | true =>
        simp only [hc] at h
        cases hrec : executeCallLoop env sender (i + 1) rest with
        | error er =>
          simp only [hrec] at h
          cases h
          exact executeCallLoop_error env sender (i + 1) rest _ hrec
        | ok evs => simp [hrec] at h

/-- `_executeBatch` can only fail with `InsufficientETH` or `CallFailed`,
and any failure leaves the persisted nonce unchanged. -/
theorem executeBatch_error (env : CallEnv) (sender msgValue nonce : Nat)
    (calls : List CallData) (e : ESError)
    (h : (executeBatch env sender msgValue nonce calls).1 = .error e) :
    (e = .InsufficientETH ∨ ∃ idx rd, e = .CallFailed idx rd) ∧
      (executeBatch env sender msgValue nonce calls).2 = nonce := by
  unfold executeBatch at h ⊢
  by_cases hval : msgValue < (calls.map CallData.value).sum
  · simp only [if_pos hval] at h ⊢
    cases h
    simp
  · simp only [if_neg hval] at h ⊢
    cases hrec : executeCallLoop env sender 0 calls with
    | error er =>
      simp only [hrec] at h ⊢
      cases h
      exact ⟨Or.inr (executeCallLoop_error env sender 0 calls _ hrec), by simp⟩
    | ok evs => simp [hrec] at h

/-- The client's hash-rebinding loop is the left fold of its step. -/
theorem clientFold_eq_foldl (K : Bytes → Nat) :
    ∀ (prs : List (PermitData × TransferData)) (h : Nat),
      clientFold K h prs =
        prs.foldl (fun h pr => K (pairBytes h pr.1 pr.2)) h
  | [], _ => rfl
  | (pd, td) :: rest, h => by
    unfold clientFold
    rw [clientFold_eq_foldl K rest]
    rfl

/-! The claim theorems. -/

/-- C1: the claim says every entry point whose signature digest embeds the
counter, including the single-pair `permitTransferWithSignature`, leaves the
counter at its pre-submission value plus one after a successful submission,
so the same signature cannot be accepted twice.  The code contradicts this:
`permitTransferWithSignature` verifies the owner's signature over the current
nonce but never increments the nonce, so a concrete successful submission
leaves the counter unchanged and resubmitting the identical signature in the
resulting (identical) state is accepted again. -/
theorem C1_single_pair_nonce_never_advances :
    (permitTransferWithSignature Kzero Rconst7 envAllOk 5 0 0 pdGood tdGood
        0).result = .ok [.TokenSaved 1 7 2 3] ∧
      (permitTransferWithSignature Kzero Rconst7 envAllOk 5 0 0 pdGood tdGood
        0).nonceAfter = 0 ∧
      verifySignature Kzero Rconst7 0 pdGood tdGood 0 = .ok () :=
  ⟨rfl, rfl, rfl⟩

/-- C2 counterexample: a concrete permit batch passes signature verification,
fails during execution with `PermitFailed`, and the persisted counter equals
its pre-submission value 0 — the `nonce++` performed before the loop is
rolled back by the revert — so the very same signature still verifies in the
post-failure state, contradicting the claim that the advance persists and
the signature can never verify again. -/
theorem C2_counterexample_failed_batch_rolls_nonce_back :
    (permitTransferBatchWithSignature Kzero Rconst7 envPermitRejects 5 0 9 0
        [pdGood] [tdGood] 0).result
        = .error (.PermitFailed 1 "permit rejected") ∧
      (permitTransferBatchWithSignature Kzero Rconst7 envPermitRejects 5 0 9 0
        [pdGood] [tdGood] 0).nonceAfter = 0 ∧
      verifyBatchSignature Kzero Rconst7 0 [pdGood] [tdGood] 0 = .ok () :=
  ⟨rfl, rfl, rfl⟩

/-- C2 amended: when a batch submission passes signature verification and
then fails during execution (`PermitFailed`/`TransferFailed` on the permit
path, `CallFailed` on the sponsored call path), the whole transaction
reverts, rolling the counter advance back: the persisted counter equals its
pre-submission value, and the batch's signature check still passes against
that counter. -/
theorem C2_execution_failure_rolls_back_counter (K : Bytes → Nat)
    (R : Nat → Nat → Nat) (env : TokenEnv) (cenv : CallEnv)
    (self now sender msgValue nonce : Nat) (ps : List PermitData)
    (ts : List TransferData) (calls : List CallData) (sig csig : Nat)
    (e : PSError) (f : ESError) :
    ((permitTransferBatchWithSignature K R env self now sender nonce ps ts
        sig).result = .error e →
      ((∃ t r, e = .PermitFailed t r) ∨ (∃ t r, e = .TransferFailed t r)) →
      (permitTransferBatchWithSignature K R env self now sender nonce ps ts
        sig).nonceAfter = nonce ∧
        verifyBatchSignature K R nonce ps ts sig = .ok ()) ∧
      ((executeSponsored K R cenv sender msgValue self nonce calls
          csig).result = .error f →
        (∃ idx rd, f = .CallFailed idx rd) →
        (executeSponsored K R cenv sender msgValue self nonce calls
          csig).nonceAfter = nonce ∧
          R (toEthSignedMessageHash K (callBatchDigest K nonce calls)) csig
            = self) := by
  constructor
  · intro hres hkind
    unfold permitTransferBatchWithSignature at hres ⊢
    by_cases h1 : MAX_BATCH_SIZE < ps.length ∨ MAX_BATCH_SIZE < ts.length
    · simp only [if_pos h1] at hres
      cases hres
      rcases hkind with ⟨t, r, h⟩ | ⟨t, r, h⟩ <;> cases h
    · simp only [if_neg h1] at hres ⊢
      by_cases h2 : ps.length ≠ ts.length
      · simp only [if_pos h2] at hres
        cases hres
        rcases hkind with ⟨t, r, h⟩ | ⟨t, r, h⟩ <;> cases h
      · simp only [if_neg h2] at hres ⊢
        cases hver : verifyBatchSignature K R nonce ps ts sig with
        | error ev =>
          simp only [hver] at hres
          cases hres
          rcases verifyBatchSignature_ok_or_invalid K R nonce ps ts sig with
            hv | hv
          · rw [hver] at hv; cases hv
          · rw [hver] at hv
            cases hv
            rcases hkind with ⟨t, r, h⟩ | ⟨t, r, h⟩ <;> cases h
        | ok uv =>
          cases uv
          simp only [hver] at hres ⊢
          cases hloop : permitBatchLoop env self now (ps.zip ts) with
          | error el =>
            simp only [hloop] at hres ⊢
            constructor <;> trivial
          | ok evs => simp [hloop] at hres
  · intro hres hkind
    unfold executeSponsored at hres ⊢
    by_cases h1 : MAX_BATCH_SIZE < calls.length
    · simp only [if_pos h1] at hres
      cases hres
      rcases hkind with ⟨idx, rd, h⟩; cases h
    · simp only [if_neg h1] at hres ⊢
      by_cases h2 :
          R (toEthSignedMessageHash K (callBatchDigest K nonce calls)) csig
            = self
      · simp only [if_pos h2] at hres ⊢
        cases hb : executeBatch cenv sender msgValue nonce calls with
        | mk rb nb =>
          simp only [hb] at hres ⊢
          cases rb with
          | error eb =>
            cases hres
            have := executeBatch_error cenv sender msgValue nonce calls _
              (by rw [hb])
            rw [hb] at this
            exact ⟨this.2, h2⟩
          | ok evs => simp at hres
      · simp only [if_neg h2] at hres
        cases hres
        rcases hkind with ⟨idx, rd, h⟩; cases h

/-- C3 counterexample: a concrete permit batch whose first permit has a zero
token address and whose signature verifies reverts `InvalidToken`, yet
signature recovery has already been executed by then (the per-item
validation runs inside the execution loop, after `_verifyBatchSignature` and
after the nonce increment), contradicting the claim that no signature
recovery has happened whenever a structural error is the outcome. -/
theorem C3_counterexample_invalid_token_after_recovery :
    (permitTransferBatchWithSignature Kzero Rconst7 envAllOk 5 0 9 0
        [pdZeroToken] [tdGood] 0).result = .error .InvalidToken ∧
      (permitTransferBatchWithSignature Kzero Rconst7 envAllOk 5 0 9 0
        [pdZeroToken] [tdGood] 0).recoverInvoked = true ∧
      verifyBatchSignature Kzero Rconst7 0 [pdZeroToken] [tdGood] 0
        = .ok () :=
  ⟨rfl, rfl, rfl⟩

/-- C3 amended: on the batch entry point, `BatchTooLarge` and
`ArrayLengthMismatch` are raised before any signature recovery and leave the
counter unchanged; `InvalidToken` and `PermitExpired` are raised inside the
execution loop, after signature recovery has been executed, though the
revert still leaves the persisted counter unchanged.  On the single-pair
entry point all four structural errors precede signature recovery and leave
the counter unchanged. -/
theorem C3_structural_error_stage (K : Bytes → Nat) (R : Nat → Nat → Nat)
    (env : TokenEnv) (self now sender nonce : Nat) (ps : List PermitData)
    (ts : List TransferData) (pd : PermitData) (td : TransferData)
    (sig ssig : Nat) :
    ((permitTransferBatchWithSignature K R env self now sender nonce ps ts
          sig).result = .error .BatchTooLarge ∨
        (permitTransferBatchWithSignature K R env self now sender nonce ps ts
          sig).result = .error .ArrayLengthMismatch →
      (permitTransferBatchWithSignature K R env self now sender nonce ps ts
          sig).recoverInvoked = false ∧
        (permitTransferBatchWithSignature K R env self now sender nonce ps ts
          sig).nonceAfter = nonce) ∧
      ((permitTransferBatchWithSignature K R env self now sender nonce ps ts
          sig).result = .error .InvalidToken ∨
        (permitTransferBatchWithSignature K R env self now sender nonce ps ts
          sig).result = .error .PermitExpired →
        (permitTransferBatchWithSignature K R env self now sender nonce ps ts
          sig).recoverInvoked = true ∧
          (permitTransferBatchWithSignature K R env self now sender nonce ps
            ts sig).nonceAfter = nonce) ∧
      ((permitTransferWithSignature K R env self now nonce pd td
          ssig).result = .error .BatchTooLarge ∨
        (permitTransferWithSignature K R env self now nonce pd td
          ssig).result = .error .ArrayLengthMismatch ∨
        (permitTransferWithSignature K R env self now nonce pd td
          ssig).result = .error .InvalidToken ∨
        (permitTransferWithSignature K R env self now nonce pd td
          ssig).result = .error .PermitExpired →
        (permitTransferWithSignature K R env self now nonce pd td
          ssig).recoverInvoked = false ∧
          (permitTransferWithSignature K R env self now nonce pd td
            ssig).nonceAfter = nonce) := by
  refine ⟨?_, ?_, ?_⟩
  · intro hres
    unfold permitTransferBatchWithSignature at hres ⊢
    by_cases h1 : MAX_BATCH_SIZE < ps.length ∨ MAX_BATCH_SIZE < ts.length
    · simp [if_pos h1]
    · simp only [if_neg h1] at hres ⊢
      by_cases h2 : ps.length ≠ ts.length
      · simp [if_pos h2]
      · simp only [if_neg h2] at hres ⊢
        cases hver : verifyBatchSignature K R nonce ps ts sig with
        | error ev =>
          simp only [hver] at hres
          rcases verifyBatchSignature_ok_or_invalid K R nonce ps ts sig with
            hv | hv
          · rw [hver] at hv; cases hv
          · rw [hver] at hv
            cases hv
            rcases hres with h | h <;> cases h
        | ok uv =>
          cases uv
          simp only [hver] at hres
          cases hloop : permitBatchLoop env self now (ps.zip ts) with
          | error el =>
            simp only [hloop] at hres
            rcases hres with h | h <;>
              · cases h
                rcases permitBatchLoop_error env self now (ps.zip ts) _ hloop
                  with h | h | h | ⟨t, r, h⟩ | ⟨t, r, h⟩ <;> cases h
          | ok evs =>
            simp only [hloop] at hres
            rcases hres with h | h <;> simp at h
  · intro hres
    unfold permitTransferBatchWithSignature at hres ⊢
    by_cases h1 : MAX_BATCH_SIZE < ps.length ∨ MAX_BATCH_SIZE < ts.length
    · simp only [if_pos h1] at hres
      rcases hres with h | h <;> cases h
    · simp only [if_neg h1] at hres ⊢
      by_cases h2 : ps.length ≠ ts.length
      · simp only [if_pos h2] at hres
        rcases hres with h | h <;> cases h
      · simp only [if_neg h2] at hres ⊢
        cases hver : verifyBatchSignature K R nonce ps ts sig with
        | error ev =>
          simp only [hver] at hres
          rcases verifyBatchSignature_ok_or_invalid K R nonce ps ts sig with
            hv | hv
          · rw [hver] at hv; cases hv
          · rw [hver] at hv
            cases hv
            rcases hres with h | h <;> cases h
        | ok uv =>
          cases uv
          simp only [hver] at hres ⊢
          cases hloop : permitBatchLoop env self now (ps.zip ts) with
          | error el => simp [hloop]
          | ok evs =>
            simp only [hloop] at hres
            rcases hres with h | h <;> simp at h
  · intro hres
    unfold permitTransferWithSignature at hres ⊢
    cases hv : validatePermitData now pd with
    | error ev => simp [hv]
    | ok uv =>
      cases uv
      simp only [hv] at hres ⊢
      cases ht : validateTransferData td with
      | error et => simp [ht]
      | ok ut =>
        cases ut
        simp only [ht] at hres ⊢
        by_cases hsp : pd.spender = self
        · simp only [if_pos hsp] at hres ⊢
          cases hver : verifySignature K R nonce pd td ssig with
          | error ev =>
            simp only [hver] at hres
            unfold verifySignature at hver
            by_cases hr :
                R (toEthSignedMessageHash K (singleMessageHash K nonce pd td))
                  ssig = pd.owner
            · simp [hr] at hver
            · simp only [if_neg hr] at hver
              cases hver
              rcases hres with h | h | h | h <;> cases h
          | ok uver =>
            cases uver
            simp only [hver] at hres ⊢
            cases hp : executePermit env self pd with
            | error ep =>
              simp only [hp] at hres
              obtain ⟨r, hr⟩ := executePermit_error _ _ _ _ hp
              subst hr
              rcases hres with h | h | h | h <;> cases h
            | ok up =>
              cases up
              simp only [hp] at hres ⊢
              cases htr : executeTransferFromOwner env pd.owner td with
              | error etr =>
                simp only [htr] at hres
                obtain ⟨r, hr⟩ := executeTransferFromOwner_error _ _ _ _ htr
                subst hr
                rcases hres with h | h | h | h <;> cases h
              | ok utr =>
                cases utr
                simp only [htr] at hres
                rcases hres with h | h | h | h <;> cases h
        · simp only [if_neg hsp] at hres ⊢
          rcases hres with h | h | h | h <;> cases h

/-- C4: batch signature verification succeeds exactly when some address `o`
is the owner of every permit in the batch and is the address recovered from
the signature over the prefixed batch digest (for a nonempty batch `o` is
forced to be the shared owner; for the empty batch the source checks nothing
and the condition holds with `o` the recovered address); in every other case
it fails with `InvalidSignature`, the only error the function can raise. -/
theorem C4_batch_signature_characterization (K : Bytes → Nat)
    (R : Nat → Nat → Nat) (nonce : Nat) (ps : List PermitData)
    (ts : List TransferData) (sig : Nat) :
    (verifyBatchSignature K R nonce ps ts sig = .ok () ↔
        ∃ o, (∀ p ∈ ps, p.owner = o) ∧
          R (batchEthDigest K nonce ps ts) sig = o) ∧
      (verifyBatchSignature K R nonce ps ts sig = .ok () ∨
        verifyBatchSignature K R nonce ps ts sig
          = .error .InvalidSignature) := by
  refine ⟨?_, verifyBatchSignature_ok_or_invalid K R nonce ps ts sig⟩
  constructor
  · intro h
    cases ps with
    | nil => exact ⟨R (batchEthDigest K nonce [] ts) sig, by simp, rfl⟩
    | cons p0 rest =>
      obtain ⟨hall, hrec⟩ := verifyBatchSignature_cons_ok K R nonce p0 rest
        ts sig h
      exact ⟨p0.owner, hall, hrec⟩
  · rintro ⟨o, hall, hrec⟩
    cases ps with
    | nil => rfl
    | cons p0 rest =>
      have h0 : p0.owner = o := hall p0 (by simp)
      unfold verifyBatchSignature
      have hallb : ((p0 :: rest).all fun p => p.owner == p0.owner) = true := by
        simp only [List.all_eq_true, beq_iff_eq]
        intro p hp
        rw [hall p hp, h0]
      simp only [hallb, if_true]
      rw [hrec, ← h0]
      simp

/-- C5 counterexample: the self-invoked call-batch entry point performs no
size check: a batch of 51 calls is accepted and executes in full, instead of
being rejected with `BatchTooLarge` as the claim requires of every batch
entry point. -/
theorem C5_counterexample_self_accepts_51 :
    calls51.length = 51 ∧
      (executeSelf cenvOk 5 0 5 0 calls51).result
        = .ok (List.replicate 51 (.CallExecuted 5 1 0 []) ++
          [.BatchExecuted 0 51 5]) := by
  constructor
  · rfl
  · rfl

/-- C5 amended: the sponsored call-batch entry rejects a batch with
`BatchTooLarge` exactly when it exceeds 50 items (so a 50-item batch
passes), and does so before any signature recovery; the sponsored
permit-batch entry likewise rejects exactly when either array exceeds 50
items, before any signature recovery; the self-invoked call-batch entry has
no size check and never raises `BatchTooLarge`. -/
theorem C5_batch_size_boundary (K : Bytes → Nat) (R : Nat → Nat → Nat)
    (cenv : CallEnv) (env : TokenEnv) (self now sender msgValue nonce : Nat)
    (calls : List CallData) (ps : List PermitData) (ts : List TransferData)
    (sig psig : Nat) :
    ((executeSponsored K R cenv sender msgValue self nonce calls sig).result
        = .error .BatchTooLarge ↔ MAX_BATCH_SIZE < calls.length) ∧
      (MAX_BATCH_SIZE < calls.length →
        (executeSponsored K R cenv sender msgValue self nonce calls
          sig).recoverInvoked = false) ∧
      ((permitTransferBatchWithSignature K R env self now sender nonce ps ts
          psig).result = .error .BatchTooLarge ↔
        MAX_BATCH_SIZE < ps.length ∨ MAX_BATCH_SIZE < ts.length) ∧
      (MAX_BATCH_SIZE < ps.length ∨ MAX_BATCH_SIZE < ts.length →
        (permitTransferBatchWithSignature K R env self now sender nonce ps ts
          psig).recoverInvoked = false) ∧
      (executeSelf cenv sender msgValue self nonce calls).result
        ≠ .error .BatchTooLarge := by
  refine ⟨⟨?_, ?_⟩, ?_, ⟨?_, ?_⟩, ?_, ?_⟩
  · intro hres
    unfold executeSponsored at hres
    by_cases h1 : MAX_BATCH_SIZE < calls.length
    · exact h1
    · exfalso
      simp only [if_neg h1] at hres
      by_cases h2 :
          R (toEthSignedMessageHash K (callBatchDigest K nonce calls)) sig
            = self
      · simp only [if_pos h2] at hres
        cases hb : executeBatch cenv sender msgValue nonce calls with
        | mk rb nb =>
          simp only [hb] at hres
          cases rb with
          | error eb =>
            cases hres
            rcases (executeBatch_error cenv sender msgValue nonce calls _
              (by rw [hb])).1 with h | ⟨idx, rd, h⟩ <;> cases h
          | ok evs => simp at hres
      · simp only [if_neg h2] at hres
        cases hres
  · intro h1
    unfold executeSponsored
    simp [if_pos h1]
  · intro h1
    unfold executeSponsored
    simp [if_pos h1]
  · intro hres
    unfold permitTransferBatchWithSignature at hres
    by_cases h1 : MAX_BATCH_SIZE < ps.length ∨ MAX_BATCH_SIZE < ts.length
    · exact h1
    · exfalso
      simp only [if_neg h1] at hres
      by_cases h2 : ps.length ≠ ts.length
      · simp only [if_pos h2] at hres
        cases hres
      · simp only [if_neg h2] at hres
        cases hver : verifyBatchSignature K R nonce ps ts psig with
        | error ev =>
          simp only [hver] at hres
          rcases verifyBatchSignature_ok_or_invalid K R nonce ps ts psig with
            hv | hv
          · rw [hver] at hv; cases hv
          · rw [hver] at hv
            cases hv
            cases hres
        | ok uv =>
          cases uv
          simp only [hver] at hres
          cases hloop : permitBatchLoop env self now (ps.zip ts) with
          | error el =>
            simp only [hloop] at hres
            cases hres
            rcases permitBatchLoop_error env self now (ps.zip ts) _ hloop
              with h | h | h | ⟨t, r, h⟩ | ⟨t, r, h⟩ <;> cases h
          | ok evs => simp [hloop] at hres
  · intro h1
    unfold permitTransferBatchWithSignature
    simp [if_pos h1]
  · intro h1
    unfold permitTransferBatchWithSignature
    simp [if_pos h1]
  · intro hres
    unfold executeSelf at hres
    by_cases hs : sender = self
    · simp only [if_pos hs] at hres
      cases hb : executeBatch cenv sender msgValue nonce calls with
      | mk rb nb =>
        simp only [hb] at hres
        cases rb with
        | error eb =>
          cases hres
          rcases (executeBatch_error cenv sender msgValue nonce calls _
            (by rw [hb])).1 with h | ⟨idx, rd, h⟩ <;> cases h
        | ok evs => simp at hres
    · simp only [if_neg hs] at hres
      cases hres

set_option maxRecDepth 8000 in
/-- C6 counterexample: for the empty permit batch the source skips the
recovered-signer comparison entirely (`permitDataArray.length > 0` guards
every check), so the same signature verifies both at counter 0 and at
counter 1 even though the two prefixed digests differ — contradicting the
claim that a signature valid at counter N fails in every state where the
counter has advanced past N. -/
theorem C6_counterexample_empty_batch_ignores_counter :
    batchEthDigest Ksum 0 ([] : List PermitData) ([] : List TransferData)
        ≠ batchEthDigest Ksum 1 [] [] ∧
      verifyBatchSignature Ksum Rid 0 [] [] 0 = .ok () ∧
      verifyBatchSignature Ksum Rid 1 [] [] 0 = .ok () := by
  refine ⟨by decide, rfl, rfl⟩

/-- C6 amended: for every nonempty permit batch, a signature that verifies
when the counter equals N fails with `InvalidSignature` at any other counter
value, provided the two counters give distinct prefixed digests (no hash
collision) and recovery at the fixed signature is injective in the digest —
the counter is folded into the signed digest, so a different counter changes
the recovered address away from the shared owner.  The empty batch is the
exception recorded by the counterexample. -/
theorem C6_single_use_signature (K : Bytes → Nat) (R : Nat → Nat → Nat)
    (m n : Nat) (ps : List PermitData) (ts : List TransferData) (sig : Nat)
    (hne : ps ≠ [])
    (hdig : batchEthDigest K m ps ts ≠ batchEthDigest K n ps ts)
    (hinj : ∀ d e, R d sig = R e sig → d = e)
    (hok : verifyBatchSignature K R m ps ts sig = .ok ()) :
    verifyBatchSignature K R n ps ts sig = .error .InvalidSignature := by
  cases ps with
  | nil => exact absurd rfl hne
  | cons p0 rest =>
    obtain ⟨hall, hrec⟩ := verifyBatchSignature_cons_ok K R m p0 rest ts sig
      hok
    have hner : R (batchEthDigest K n (p0 :: rest) ts) sig ≠ p0.owner := by
      intro heq
      exact hdig (hinj _ _ (heq.trans hrec.symm)).symm
    unfold verifyBatchSignature
    have hallb : ((p0 :: rest).all fun p => p.owner == p0.owner) = true := by
      simp only [List.all_eq_true, beq_iff_eq]
      intro p hp
      exact hall p hp
    simp only [hallb, if_true, if_neg hner]

set_option maxRecDepth 8000 in
/-- C6 witness: a concrete one-pair batch, hash oracle and digest-injective
recovery oracle under which the signature verifies at counter 0; the theorem
then makes it fail at counter 1. -/
theorem C6_witness :
    verifyBatchSignature Ksum Rswap 1 [pw] [tw] 0
      = .error .InvalidSignature :=
  C6_single_use_signature Ksum Rswap 0 1 [pw] [tw] 0 (by simp) (by decide)
    (fun d e h => natSwap_inj wDigest0 1 d e h) rfl

/-- C7: the client-side batch digest construction (seed hash of the two
lengths and the counter, one keccak fold per pair, then the personal-sign
prefix transform) equals, for every batch and counter, the value the
contract's `_verifyBatchSignature` recovers against, and both equal the
spec's fold formula. -/
theorem C7_digest_refinement (K : Bytes → Nat) (ps : List PermitData)
    (ts : List TransferData) (nonce : Nat) :
    clientSignedDigest K ps ts nonce
        = toEthSignedMessageHash K (batchMessageHash K nonce ps ts) ∧
      batchMessageHash K nonce ps ts = specFoldDigest K nonce ps ts ∧
      clientBatchMessageHash K ps ts nonce = specFoldDigest K nonce ps ts := by
  have hclient : clientBatchMessageHash K ps ts nonce
      = batchMessageHash K nonce ps ts := by
    unfold clientBatchMessageHash batchMessageHash
    rw [clientFold_eq_foldl]
  have hspec : batchMessageHash K nonce ps ts
      = specFoldDigest K nonce ps ts := rfl
  refine ⟨?_, hspec, hclient.trans hspec⟩
  unfold clientSignedDigest toEthSignedMessageHash
  rw [hclient]

/-- C8: when the permit grant call fails, the adapter re-reads the current
allowance of the owner to the contract on that token and continues exactly
when that allowance covers the requested value; otherwise it raises
`PermitFailed` carrying that token and the failure reason, and that error
aborts the whole execution loop from the failing item on. -/
theorem C8_permit_fallback (env : TokenEnv) (self : Nat) (pd : PermitData)
    (hfail : env.permitResult pd ≠ .success) :
    (executePermit env self pd = .ok () ↔
        pd.value ≤ env.allowance pd.token pd.owner self) ∧
      (∀ e, executePermit env self pd = .error e →
        ∃ reason, e = .PermitFailed pd.token reason) ∧
      (∀ e td rest now, executePermit env self pd = .error e →
        validatePermitData now pd = .ok () →
        validateTransferData td = .ok () → pd.spender = self →
        permitBatchLoop env self now ((pd, td) :: rest) = .error e) := by
  refine ⟨?_, ?_, ?_⟩
  · cases hp : env.permitResult pd with
    | success => exact absurd hp hfail
    | revertWith reason =>
      unfold executePermit
      simp only [hp]
      by_cases hlt : env.allowance pd.token pd.owner self < pd.value
      · rw [if_pos hlt]
        constructor
        · intro h
          exact Except.noConfusion h
        · intro h
          exfalso
          omega
      · rw [if_neg hlt]
        constructor
        · intro _
          omega
        · intro _
          rfl
    | revertRaw =>
      unfold executePermit
      simp only [hp]
      by_cases hlt : env.allowance pd.token pd.owner self < pd.value
      · rw [if_pos hlt]
        constructor
        · intro h
          exact Except.noConfusion h
        · intro h
          exfalso
          omega
      · rw [if_neg hlt]
        constructor
        · intro _
          omega
        · intro _
          rfl
  · intro e h
    exact executePermit_error env self pd e h
  · intro e td rest now hp hv ht hsp
    unfold permitBatchLoop
    simp only [hv, ht, if_pos hsp, hp]

/-- C8 witness: the fallback theorem at a concrete permit whose grant call
reverts while the owner's allowance to the contract is 5 ≥ the requested
value 1. -/
theorem C8_witness :
    (executePermit envAllowance5 5 pdGood = .ok () ↔
        pdGood.value ≤ envAllowance5.allowance pdGood.token pdGood.owner 5) ∧
      (∀ e, executePermit envAllowance5 5 pdGood = .error e →
        ∃ reason, e = .PermitFailed pdGood.token reason) ∧
      (∀ e td rest now, executePermit envAllowance5 5 pdGood = .error e →
        validatePermitData now pdGood = .ok () →
        validateTransferData td = .ok () → pdGood.spender = 5 →
        permitBatchLoop envAllowance5 5 now ((pdGood, td) :: rest)
          = .error e) :=
  C8_permit_fallback envAllowance5 5 pdGood (by decide)

/-- C9 counterexample: code consisting of the single zero byte is thrown as
unknown bytecode, not reported as "no delegation" as the claim states; and
code consisting of the marker followed by only five bytes is reported as a
delegation to those five bytes rather than raising the unrecognized-format
error the claim requires for such non-empty code. -/
theorem C9_counterexample_delegation_reader :
    checkDelegation (some [0]) = .unknownBytecode ∧
      checkDelegation (some [0]) ≠ .noDelegation ∧
      checkDelegation (some (0xef :: 0x01 :: 0x00 :: [1, 2, 3, 4, 5]))
        = .delegated [1, 2, 3, 4, 5] := by
  refine ⟨rfl, by decide, rfl⟩

/-- C9 amended: absent or empty code yields no delegation; code beginning
with the 3-byte marker `0xef0100` yields a delegation to all the remaining
bytes (in particular exactly the 20 address bytes when 20 bytes follow); and
every other non-empty code — including the single zero byte — raises the
unknown-bytecode error. -/
theorem C9_delegation_reader (code rest : Bytes) :
    checkDelegation none = .noDelegation ∧
      checkDelegation (some []) = .noDelegation ∧
      checkDelegation (some (0xef :: 0x01 :: 0x00 :: rest))
        = .delegated rest ∧
      (code ≠ [] → (∀ r, code ≠ 0xef :: 0x01 :: 0x00 :: r) →
        checkDelegation (some code) = .unknownBytecode) := by
  refine ⟨rfl, rfl, rfl, ?_⟩
  intro hne hmark
  rcases code with _ | ⟨b0, _ | ⟨b1, _ | ⟨b2, r⟩⟩⟩
  · exact absurd rfl hne
  · unfold checkDelegation
    split <;> simp_all
  · unfold checkDelegation
    split <;> simp_all
  · unfold checkDelegation
    split <;> simp_all

/-- C10 counterexample: a single-pair submission whose permit names spender
4 (not the contract, 5) and whose transfer has a zero amount fails with
`InvalidToken`, not `InvalidSpender` — the validation checks run before the
spender check — so a permit naming a different spender does not always make
the submission fail *with `InvalidSpender`*. -/
theorem C10_counterexample_wrong_spender_other_error :
    pdWrongSpender.spender ≠ 5 ∧
      (permitTransferWithSignature Kzero Rconst7 envAllOk 5 0 0
        pdWrongSpender tdZeroAmount 0).result = .error .InvalidToken := by
  refine ⟨by decide, rfl⟩

/-- C10 amended: both permit entry points succeed only when every permit's
spender equals the contract's own address; a submission containing a permit
with a different spender never succeeds, and on the single-pair path the
failure is `InvalidSpender` whenever both structural validations pass. -/
theorem C10_spender_must_be_contract (K : Bytes → Nat) (R : Nat → Nat → Nat)
    (env : TokenEnv) (self now sender nonce : Nat) (ps : List PermitData)
    (ts : List TransferData) (pd : PermitData) (td : TransferData)
    (sig ssig : Nat) :
    (∀ evs, (permitTransferWithSignature K R env self now nonce pd td
        ssig).result = .ok evs → pd.spender = self) ∧
      (validatePermitData now pd = .ok () → validateTransferData td = .ok ()
        → pd.spender ≠ self →
        (permitTransferWithSignature K R env self now nonce pd td
          ssig).result = .error .InvalidSpender) ∧
      (∀ evs, (permitTransferBatchWithSignature K R env self now sender nonce
        ps ts sig).result = .ok evs → ∀ p ∈ ps, p.spender = self) ∧
      ((∃ p ∈ ps, p.spender ≠ self) →
        ∀ evs, (permitTransferBatchWithSignature K R env self now sender
          nonce ps ts sig).result ≠ .ok evs) := by
  have hbatch : ∀ evs, (permitTransferBatchWithSignature K R env self now
      sender nonce ps ts sig).result = .ok evs →
      ∀ p ∈ ps, p.spender = self := by
    intro evs h p hp
    unfold permitTransferBatchWithSignature at h
    by_cases h1 : MAX_BATCH_SIZE < ps.length ∨ MAX_BATCH_SIZE < ts.length
    · simp [if_pos h1] at h
    · simp only [if_neg h1] at h
      by_cases h2 : ps.length ≠ ts.length
      · simp [if_pos h2] at h
      · simp only [if_neg h2] at h
        cases hver : verifyBatchSignature K R nonce ps ts sig with
        | error ev => simp [hver] at h
        | ok uv =>
          cases uv
          simp only [hver] at h
          cases hloop : permitBatchLoop env self now (ps.zip ts) with
          | error el => simp [hloop] at h
          | ok evs2 =>
            have hlen : ps.length = ts.length := by
              by_contra hc
              exact h2 hc
            exact forall_left_of_zip (fun q => q.spender = self) ps ts hlen
              (permitBatchLoop_ok_spender env self now (ps.zip ts) evs2
                hloop) p hp
  refine ⟨?_, ?_, hbatch, ?_⟩
  · intro evs h
    unfold permitTransferWithSignature at h
    cases hv : validatePermitData now pd with
    | error ev => simp [hv] at h
    | ok uv =>
      cases uv
      simp only [hv] at h
      cases ht : validateTransferData td with
      | error et => simp [ht] at h
      | ok ut =>
        cases ut
        simp only [ht] at h
        by_cases hsp : pd.spender = self
        · exact hsp
        · simp [if_neg hsp] at h
  · intro hv ht hsp
    unfold permitTransferWithSignature
    simp only [hv, ht, if_neg hsp]
  · rintro ⟨p, hp, hspend⟩ evs h
    exact hspend (hbatch evs h p hp)

end AntiDrainer
